import Mathlib

/-!
Verification development for the real-job-posting-verifier ingestion pipeline.

This file shallowly embeds the core of the pipeline:

* the batch deduplication of `scrapeAllSources` (scraper),
* the red-flag scan and verdict construction of `verifyJob` (verifier),
* the rule-based fallback scorer `analyzeWithRules` (ai-checker),
* the orchestration of `runPipeline` and `reverifyExistingJobs` (automation
  pipeline), and
* the public-listing freshness query of the home page.

Network calls (HTTP accessibility checks, domain checks, model calls) and the
storage layer are external effects; they are passed in as explicit oracle
arguments, so every definition below is a pure function of the posting data
and of those oracle results, exactly mirroring the data flow of the source.
-/

namespace JobVerifier

/-! ## String helpers

JavaScript `String.prototype.includes`, `toLowerCase`, and template strings
are modelled on `List Char` / `String`.
-/

/-- Lower-case every character of a string (models `s.toLowerCase()` for the
ASCII texts handled by the pipeline). -/
def lowerStr (s : String) : String :=
  ⟨s.data.map Char.toLower⟩

/-- Case-sensitive test that `needle` occurs at the start of `hay`. -/
def startsList (needle hay : List Char) : Bool :=
  match needle, hay with
  | [], _ => true
  | _ :: _, [] => false
  | a :: s, c :: cs => a == c && startsList s cs

/-- Case-sensitive substring test (models `hay.includes(needle)`). -/
def containsList (needle : List Char) : List Char → Bool
  | [] => startsList needle []
  | c :: cs => startsList needle (c :: cs) || containsList needle cs

/-- Substring test on strings (models JavaScript `hay.includes(needle)`). -/
def strContains (hay needle : String) : Bool :=
  containsList needle.data hay.data

/-- Case-insensitive test that `needle` occurs at the start of `hay`. -/
def ciStartsList (needle hay : List Char) : Bool :=
  match needle, hay with
  | [], _ => true
  | _ :: _, [] => false
  | a :: s, c :: cs => a.toLower == c.toLower && ciStartsList s cs

/-- Case-insensitive substring test. -/
def ciContainsList (needle : List Char) : List Char → Bool
  | [] => ciStartsList needle []
  | c :: cs => ciStartsList needle (c :: cs) || ciContainsList needle cs

/-- Case-insensitive substring test on strings (models a `/literal/i`
regular-expression test). -/
def strContainsCI (hay needle : String) : Bool :=
  ciContainsList needle.data hay.data

/-- Join a list of strings with a separator (models `Array.prototype.join`). -/
def joinSep (sep : String) : List String → String
  | [] => ""
  | [s] => s
  | s :: rest => s ++ sep ++ joinSep sep rest

/-! ## A small matcher for the verifier's regular expressions

The red-flag patterns of the verifier use only literal text, `\d+`, `\d{3,}`,
`.*` and top-level alternation, all with the `i` flag.  A pattern is encoded
as a list of alternatives, each alternative a token sequence.
-/

/-- One token of a red-flag pattern: a case-insensitive literal, a run of at
least `n` digits, or a gap (`.*`: zero or more non-newline characters). -/
inductive RTok
  | lit : String → RTok
  | digits : Nat → RTok
  | gap : RTok
deriving Repr, DecidableEq

/-- Length of the leading run of decimal digits. -/
def digitRunLen : List Char → Nat
  | [] => 0
  | c :: cs => if c.isDigit then digitRunLen cs + 1 else 0

/-- Length of the leading run of characters matched by `.` (anything except a
line terminator). -/
def dotRunLen : List Char → Nat
  | [] => 0
  | c :: cs => if c == '\n' || c == '\r' then 0 else dotRunLen cs + 1

/-- Match a token sequence at the start of `cs` (the match may end anywhere).
Quantifiers are resolved by trying every length the quantified atom can
consume, which coincides with backtracking regular-expression semantics. -/
def matchHere : List RTok → List Char → Bool
  | [], _ => true
  | .lit s :: ts, cs => ciStartsList s.data cs && matchHere ts (cs.drop s.data.length)
  | .digits n :: ts, cs =>
      (List.range (digitRunLen cs + 1)).any
        (fun k => decide (n ≤ k) && matchHere ts (cs.drop k))
  | .gap :: ts, cs =>
      (List.range (dotRunLen cs + 1)).any (fun k => matchHere ts (cs.drop k))

/-- Match a token sequence anywhere in `cs` (an unanchored search, as
performed by `RegExp.prototype.test`). -/
def rsearch (ts : List RTok) : List Char → Bool
  | [] => matchHere ts []
  | c :: cs => matchHere ts (c :: cs) || rsearch ts cs

/-- Test a pattern (a disjunction of token sequences) against a text. -/
def rtest (alts : List (List RTok)) (text : List Char) : Bool :=
  alts.any (fun ts => rsearch ts text)

/-! ## Data model -/

/-- Output of one source adapter (`ScrapedJob` in `scraper.ts`).  The optional
numeric fields model the TypeScript optionals `salaryMin?: number` and
`description?: string`. -/
structure ScrapedJob where
  title : String
  company : String
  location : String
  locationType : String
  salaryMin : Option Int := none
  salaryMax : Option Int := none
  applyUrl : String
  sourceUrl : String
  source : String
  description : Option String := none
deriving Repr, DecidableEq

/-- JavaScript truthiness of an optional number (`undefined` and `0` are
falsy). -/
def jsTruthyInt : Option Int → Bool
  | none => false
  | some n => n != 0

/-- JavaScript truthiness of an optional string (`undefined` and `""` are
falsy). -/
def jsTruthyStr : Option String → Bool
  | none => false
  | some s => !s.isEmpty

/-- The text scanned for red flags: `` `${job.title} ${job.description || ""}` ``. -/
def redFlagText (job : ScrapedJob) : String :=
  job.title ++ " " ++ job.description.getD ""

/-! ## Verifier (`verifier.ts`) -/

/-- The `RED_FLAG_PATTERNS` table of the verifier, with each regular
expression transcribed into the token encoding:

* `/urgently hiring/i`, `/immediate start/i`, `/no experience needed/i`,
  `/guaranteed income/i`, `/be your own boss/i`, `/unlimited earning/i`
  are case-insensitive literals;
* `/work from home \$\d+k/i` is literal, one-or-more digits, literal;
* `/\$\d{3,}\/day/i` and `/\$\d{3,}\/hour/i` are literal, three-or-more
  digits, literal;
* `/crypto.*payment/i`, `/personal.*bank.*account/i`, `/send.*money/i`
  use gaps for `.*`;
* `|` becomes a second alternative. -/
def RED_FLAG_PATTERNS : List (List (List RTok) × String) :=
  [([[ .lit "urgently hiring" ]], "Urgently hiring language"),
   ([[ .lit "immediate start" ]], "Immediate start pressure"),
   ([[ .lit "no experience needed" ]], "No experience needed for tech role"),
   ([[ .lit "work from home $", .digits 1, .lit "k" ]],
      "Work from home with unrealistic salary claims"),
   ([[ .lit "$", .digits 3, .lit "/day" ]], "Unrealistic daily rate"),
   ([[ .lit "$", .digits 3, .lit "/hour" ]],
      "Unrealistic hourly rate (>$200/hr for entry level)"),
   ([[ .lit "guaranteed income" ]], "Guaranteed income claims"),
   ([[ .lit "be your own boss" ]], "MLM-style language"),
   ([[ .lit "unlimited earning" ]], "Unlimited earning claims"),
   ([[ .lit "crypto", .gap, .lit "payment" ]], "Crypto payment offers"),
   ([[ .lit "training fee" ], [ .lit "pay for training" ]],
      "Requires training fee"),
   ([[ .lit "send", .gap, .lit "money" ], [ .lit "wire transfer" ]],
      "Requests money transfer"),
   ([[ .lit "personal", .gap, .lit "bank", .gap, .lit "account" ]],
      "Requests bank account info"),
   ([[ .lit "ssn" ], [ .lit "social security" ]], "Requests SSN upfront")]

/-- The verifier's `detectRedFlags`: every matching pattern contributes its
label in table order, then the unrealistic-salary check
(`job.salaryMin && job.salaryMin > 200000`), then the vague-company check
(`company.length < 3 || toLowerCase() === "company" | "confidential"`). -/
def detectRedFlags (job : ScrapedJob) : List String :=
  let text := (redFlagText job).data
  let fromPatterns :=
    RED_FLAG_PATTERNS.filterMap
      (fun pf => if rtest pf.1 text then some pf.2 else none)
  let withSalary :=
    if jsTruthyInt job.salaryMin && decide (job.salaryMin.getD 0 > 200000) then
      fromPatterns ++ ["Unrealistic entry-level salary (>$200k)"]
    else fromPatterns
  if decide (job.company.length < 3) || lowerStr job.company == "company" ||
      lowerStr job.company == "confidential" then
    withSalary ++ ["Vague or confidential company name"]
  else withSalary

/-- Result of the external URL accessibility check (`checkUrlAccessibility`):
whether the response status was in `[200, 400)` and the observed status
(`none` when the request failed outright). -/
structure UrlCheck where
  accessible : Bool
  status : Option Int
deriving Repr, DecidableEq

/-- The verifier's `VerificationResult` record. -/
structure VerificationResult where
  isValid : Bool
  urlStatus : Option Int
  urlAccessible : Bool
  companyDomainValid : Bool
  hasRedFlags : Bool
  redFlags : List String
  notes : String
deriving Repr, DecidableEq

/-- Template rendering of `` `${urlStatus}` `` for the accessible branch of
the verdict notes (`null` prints as `"null"`). -/
def optStatusStr : Option Int → String
  | some n => toString n
  | none => "null"

/-- Template rendering of `` `${urlStatus || "failed"}` `` (both `null` and
`0` are falsy). -/
def statusOrFailed : Option Int → String
  | some n => if n == 0 then "failed" else toString n
  | none => "failed"

/-- The verifier's `verifyJob`, as a function of the posting and of the two
network-dependent check results (URL accessibility and company-domain
validity). -/
def verifyJob (job : ScrapedJob) (url : UrlCheck) (companyDomainValid : Bool) :
    VerificationResult :=
  let urlAccessible := url.accessible
  let urlStatus := url.status
  let redFlags := detectRedFlags job
  let hasRedFlags := decide (redFlags.length > 0)
  let isValid := urlAccessible && companyDomainValid && !hasRedFlags
  let notes :=
    (if urlAccessible then "URL accessible (" ++ optStatusStr urlStatus ++ ")"
     else "URL not accessible (" ++ statusOrFailed urlStatus ++ ")") ++ "; " ++
    (if companyDomainValid then "Company domain valid"
     else "Company domain invalid") ++ "; " ++
    (if hasRedFlags then "Red flags: " ++ joinSep ", " redFlags
     else "No red flags")
  { isValid := isValid, urlStatus := urlStatus, urlAccessible := urlAccessible,
    companyDomainValid := companyDomainValid, hasRedFlags := hasRedFlags,
    redFlags := redFlags, notes := notes }

/-! ## Rule-based fallback scorer (`ai-checker.ts`) -/

/-- The scorer's `AIAnalysisResult` record.  `recommendation` is one of the
string literals `"APPROVE"`, `"REVIEW"`, `"REJECT"`. -/
structure AIAnalysisResult where
  legitimacyScore : Int
  isLikelyGhostJob : Bool
  concerns : List String
  positiveSignals : List String
  recommendation : String
  reasoning : String
deriving Repr, DecidableEq

/-- The lower-cased text scanned by the rule engine:
`` `${job.title} ${job.description || ""}`.toLowerCase() ``. -/
def ruleText (job : ScrapedJob) : String :=
  lowerStr (job.title ++ " " ++ job.description.getD "")

/-- Urgency signal: `text.includes("urgently") || text.includes("immediate")`. -/
def urgencySignal (job : ScrapedJob) : Bool :=
  strContains (ruleText job) "urgently" || strContains (ruleText job) "immediate"

/-- Contradiction signal: `"no experience"` together with `"senior"`. -/
def contradictionSignal (job : ScrapedJob) : Bool :=
  strContains (ruleText job) "no experience" && strContains (ruleText job) "senior"

/-- Undisclosed-company signal:
`company.length < 3 || company.toLowerCase() === "confidential"`. -/
def undisclosedSignal (job : ScrapedJob) : Bool :=
  decide (job.company.length < 3) || lowerStr job.company == "confidential"

/-- Short-description signal: `!job.description || job.description.length < 100`. -/
def shortDescSignal (job : ScrapedJob) : Bool :=
  !jsTruthyStr job.description || decide ((job.description.getD "").length < 100)

/-- Guaranteed-claims signal: `"guaranteed"` or `"unlimited earning"`. -/
def guaranteedSignal (job : ScrapedJob) : Bool :=
  strContains (ruleText job) "guaranteed" ||
    strContains (ruleText job) "unlimited earning"

/-- Salary-range signal:
`job.salaryMin && job.salaryMax && job.salaryMax > job.salaryMin`. -/
def salarySignal (job : ScrapedJob) : Bool :=
  jsTruthyInt job.salaryMin && jsTruthyInt job.salaryMax &&
    decide (job.salaryMax.getD 0 > job.salaryMin.getD 0)

/-- Team-structure signal: `"team"`, `"report to"` or `"manager"`. -/
def teamSignal (job : ScrapedJob) : Bool :=
  strContains (ruleText job) "team" || strContains (ruleText job) "report to" ||
    strContains (ruleText job) "manager"

/-- ATS signal: the apply URL contains `"greenhouse"`, `"lever"` or
`"workday"`. -/
def atsSignal (job : ScrapedJob) : Bool :=
  strContains job.applyUrl "greenhouse" || strContains job.applyUrl "lever" ||
    strContains job.applyUrl "workday"

/-- Long-description signal: `job.description && job.description.length > 500`. -/
def longDescSignal (job : ScrapedJob) : Bool :=
  jsTruthyStr job.description && decide ((job.description.getD "").length > 500)

/-- The rule engine's score before clamping: the sequential
`score -= k` / `score += k` adjustments of `analyzeWithRules`, collapsed
into their sum starting from the neutral 70. -/
def ruleScoreRaw (job : ScrapedJob) : Int :=
  70 -
    (if urgencySignal job then 15 else 0) -
    (if contradictionSignal job then 20 else 0) -
    (if undisclosedSignal job then 15 else 0) -
    (if shortDescSignal job then 10 else 0) -
    (if guaranteedSignal job then 25 else 0) +
    (if salarySignal job then 10 else 0) +
    (if teamSignal job then 5 else 0) +
    (if atsSignal job then 10 else 0) +
    (if longDescSignal job then 5 else 0)

/-- The deterministic rule engine `analyzeWithRules`: start at 70, apply each
adjustment whose signal is present, clamp to `[0, 100]`, then derive the
ghost-job flag and the recommendation. -/
def analyzeWithRules (job : ScrapedJob) : AIAnalysisResult :=
  let concerns :=
    (if urgencySignal job then ["Urgency language detected"] else []) ++
    (if contradictionSignal job then ["Contradictory experience requirements"] else []) ++
    (if undisclosedSignal job then ["Company name not disclosed"] else []) ++
    (if shortDescSignal job then ["Very short or missing description"] else []) ++
    (if guaranteedSignal job then ["Too-good-to-be-true claims"] else [])
  let positiveSignals :=
    (if salarySignal job then ["Salary range provided"] else []) ++
    (if teamSignal job then ["Team structure mentioned"] else []) ++
    (if atsSignal job then ["Uses legitimate ATS platform"] else []) ++
    (if longDescSignal job then ["Detailed job description"] else [])
  let score := max 0 (min 100 (ruleScoreRaw job))
  { legitimacyScore := score,
    isLikelyGhostJob := decide (score < 50),
    concerns := concerns,
    positiveSignals := positiveSignals,
    recommendation :=
      if score ≥ 70 then "APPROVE" else if score ≥ 50 then "REVIEW" else "REJECT",
    reasoning := "Rule-based analysis score: " ++ toString score ++ "/100. " ++
      toString concerns.length ++ " concerns, " ++
      toString positiveSignals.length ++ " positive signals." }

/-! ## Batch aggregation dedup (`scrapeAllSources` in `scraper.ts`) -/

/-- The within-batch dedup key:
`` `${job.company.toLowerCase()}-${job.title.toLowerCase()}` ``. -/
def jobKey (job : ScrapedJob) : String :=
  lowerStr job.company ++ "-" ++ lowerStr job.title

/-- The dedup filter of `scrapeAllSources`, with the mutable `seen` set made
explicit: a job whose key is already in `seen` is dropped, otherwise it is
kept and its key recorded. -/
def dedupGo (seen : List String) : List ScrapedJob → List ScrapedJob
  | [] => []
  | j :: rest =>
    if seen.contains (jobKey j) then dedupGo seen rest
    else j :: dedupGo (jobKey j :: seen) rest

/-- Within-batch deduplication of the concatenated adapter outputs. -/
def scrapeDedup (jobs : List ScrapedJob) : List ScrapedJob :=
  dedupGo [] jobs

/-! ## Pipeline orchestrator (`runPipeline` in `pipeline.ts`)

The orchestrator is embedded stage by stage.  The per-candidate verification
verdicts, the per-candidate analysis map (with `none` for a candidate missing
from the map) and the per-insert success are oracle arguments; `now` is the
millisecond timestamp used for `new Date().toISOString()` at insert time.
-/

/-- The summary counters returned by `runPipeline`. -/
structure PipelineResult where
  scrapedCount : Nat
  verifiedCount : Nat
  addedCount : Nat
  skippedCount : Nat
  failedCount : Nat
  errors : List String
deriving Repr, DecidableEq

/-- A row inserted into the `jobs` table by step 5 of the pipeline. -/
structure JobInsertRow where
  title : String
  company : String
  location : String
  locationType : String
  salaryMin : Option Int
  salaryMax : Option Int
  applyUrl : String
  sourceUrl : String
  source : String
  verificationStatus : String
  lastVerifiedAt : Option Int
  verificationNotes : String
deriving Repr, DecidableEq

/-- JavaScript `x || null` on an optional number (`0` collapses to `null`). -/
def jsOrNull (o : Option Int) : Option Int :=
  if jsTruthyInt o then o else none

/-- Step-2 filter: keep the scraped jobs whose apply URL and source URL are
both absent from the set of URLs already stored. -/
def newJobsOf (jobs : List ScrapedJob) (existingUrls : List String) :
    List ScrapedJob :=
  jobs.filter
    (fun j => !existingUrls.contains j.applyUrl && !existingUrls.contains j.sourceUrl)

/-- Step-3 filter predicate applied to a candidate's verdict:
`result?.urlAccessible && !result?.hasRedFlags`. -/
def keepAfterVerification (v : VerificationResult) : Bool :=
  v.urlAccessible && !v.hasRedFlags

/-- Step-3 filter: the candidates kept for scoring. -/
def validJobsOf (newJobs : List ScrapedJob)
    (verify : ScrapedJob → VerificationResult) : List ScrapedJob :=
  newJobs.filter (fun j => keepAfterVerification (verify j))

/-- The default assessment substituted when `aiResults.get(job)` is
`undefined`. -/
def defaultAnalysis : AIAnalysisResult :=
  { legitimacyScore := 70, isLikelyGhostJob := false, concerns := [],
    positiveSignals := [], recommendation := "REVIEW",
    reasoning := "No AI analysis available" }

/-- The assessment used for a scored survivor:
`aiResults.get(job) || default`. -/
def analysisOf (analyze : ScrapedJob → Option AIAnalysisResult)
    (job : ScrapedJob) : AIAnalysisResult :=
  (analyze job).getD defaultAnalysis

/-- The acceptance test of step 4:
`recommendation === "APPROVE" || (recommendation === "REVIEW" && legitimacyScore >= 60)`. -/
def acceptsAnalysis (a : AIAnalysisResult) : Bool :=
  a.recommendation == "APPROVE" ||
    (a.recommendation == "REVIEW" && decide (a.legitimacyScore ≥ 60))

/-- Step-4 filter: the scored survivors accepted for persistence. -/
def approvedJobsOf (validJobs : List ScrapedJob)
    (analyze : ScrapedJob → Option AIAnalysisResult) : List ScrapedJob :=
  validJobs.filter (fun j => acceptsAnalysis (analysisOf analyze j))

/-- The row built for one accepted posting in step 5 of the pipeline. -/
def mkInsertRow (now : Int) (job : ScrapedJob) (v : VerificationResult)
    (a : AIAnalysisResult) : JobInsertRow :=
  { title := job.title, company := job.company, location := job.location,
    locationType := job.locationType,
    salaryMin := jsOrNull job.salaryMin, salaryMax := jsOrNull job.salaryMax,
    applyUrl := job.applyUrl, sourceUrl := job.sourceUrl, source := job.source,
    verificationStatus :=
      if a.recommendation == "APPROVE" then "VERIFIED" else "PENDING",
    lastVerifiedAt :=
      if a.recommendation == "APPROVE" then some now else none,
    verificationNotes := "Auto-verified. Score: " ++ toString a.legitimacyScore ++
      "/100. " ++ v.notes }

/-- The rows successfully inserted in step 5: one per accepted posting whose
insert succeeded, in order. -/
def insertedRowsOf (approved : List ScrapedJob)
    (verify : ScrapedJob → VerificationResult)
    (analyze : ScrapedJob → Option AIAnalysisResult)
    (insertOk : ScrapedJob → Bool) (now : Int) : List JobInsertRow :=
  (approved.filter insertOk).map
    (fun j => mkInsertRow now j (verify j) (analysisOf analyze j))

/-- The full ingestion run `runPipeline`, including its three early returns
(no scraped jobs, no new jobs, no verification survivors).  Returns the
summary counters together with the successfully inserted rows. -/
def runPipeline (now : Int) (jobs : List ScrapedJob)
    (existingUrls : List String) (verify : ScrapedJob → VerificationResult)
    (analyze : ScrapedJob → Option AIAnalysisResult)
    (insertOk : ScrapedJob → Bool) : PipelineResult × List JobInsertRow :=
  if jobs.isEmpty then
    ({ scrapedCount := 0, verifiedCount := 0, addedCount := 0,
       skippedCount := 0, failedCount := 0, errors := [] }, [])
  else
    let newJobs := newJobsOf jobs existingUrls
    let skippedCount := jobs.length - newJobs.length
    if newJobs.isEmpty then
      ({ scrapedCount := jobs.length, verifiedCount := 0, addedCount := 0,
         skippedCount := skippedCount, failedCount := 0, errors := [] }, [])
    else
      let validJobs := validJobsOf newJobs verify
      if validJobs.isEmpty then
        ({ scrapedCount := jobs.length, verifiedCount := 0, addedCount := 0,
           skippedCount := skippedCount, failedCount := newJobs.length,
           errors := [] }, [])
      else
        let approved := approvedJobsOf validJobs analyze
        let inserted := insertedRowsOf approved verify analyze insertOk now
        let addedCount := inserted.length
        ({ scrapedCount := jobs.length, verifiedCount := validJobs.length,
           addedCount := addedCount, skippedCount := skippedCount,
           failedCount := newJobs.length - validJobs.length +
             (approved.length - addedCount),
           errors := [] }, inserted)

/-! ## Public listing freshness (home page query) -/

/-- Milliseconds per hour. -/
def MS_PER_HOUR : Int := 3600000

/-- The home page's listing filter:
`verification_status = "VERIFIED"` and
`last_verified_at >= new Date(Date.now() - 48*60*60*1000)` (a `gte` bound;
a `NULL` timestamp never satisfies the comparison). -/
def publicListingEligible (now : Int) (status : String)
    (lastVerifiedAt : Option Int) : Bool :=
  status == "VERIFIED" &&
    (match lastVerifiedAt with
     | some t => decide (now - 48 * MS_PER_HOUR ≤ t)
     | none => false)

/-! ## Re-verification sweep (`reverifyExistingJobs` in `pipeline.ts`) -/

/-- A persisted job row as read back by the sweep. -/
structure JobRecord where
  id : String
  applyUrl : String
  verificationStatus : String
  lastVerifiedAt : Option Int
  verificationNotes : String
deriving Repr, DecidableEq

/-- Outcome of the sweep's HEAD request against a stored apply URL: either a
response with an HTTP status, or a thrown failure (timeout or network
error). -/
inductive FetchOutcome
  | response : Int → FetchOutcome
  | failure
deriving Repr, DecidableEq

/-- The sweep's selection query: `verification_status = "VERIFIED"` and
`last_verified_at < new Date(Date.now() - 24*60*60*1000)` (an `lt` bound; a
`NULL` timestamp never satisfies the comparison). -/
def reverifySelect (now : Int) (rows : List JobRecord) : List JobRecord :=
  rows.filter
    (fun r => r.verificationStatus == "VERIFIED" &&
      (match r.lastVerifiedAt with
       | some t => decide (t < now - 24 * MS_PER_HOUR)
       | none => false))

/-- One iteration of the sweep's loop body: the updated record and whether
the `expired` counter is incremented.  `nowIso` is the rendering of
`new Date().toISOString()` used in the notes. -/
def reverifyStep (now : Int) (nowIso : String) (r : JobRecord)
    (o : FetchOutcome) : JobRecord × Bool :=
  match o with
  | .response s =>
    if 200 ≤ s ∧ s < 400 then
      ({ r with lastVerifiedAt := some now,
                verificationNotes := "Re-verified at " ++ nowIso }, false)
    else
      ({ r with verificationStatus := "BROKEN_LINK",
                verificationNotes :=
                  "Link broken (HTTP " ++ toString s ++ ") at " ++ nowIso }, true)
  | .failure =>
      ({ r with verificationStatus := "BROKEN_LINK",
                verificationNotes := "Link unreachable at " ++ nowIso }, true)

/-- The result record returned by the sweep. -/
structure ReverifyResult where
  checked : Nat
  expired : Nat
  errors : List String
deriving Repr, DecidableEq

/-- The re-verification sweep `reverifyExistingJobs`: on a fetch error it
returns zero counts and the error; otherwise it selects the stale VERIFIED
rows, runs the link check on each, and returns the counts together with the
updated rows. -/
def reverifyExistingJobs (now : Int) (nowIso : String) (rows : List JobRecord)
    (outcome : JobRecord → FetchOutcome) (fetchError : Option String) :
    ReverifyResult × List JobRecord :=
  match fetchError with
  | some msg =>
      ({ checked := 0, expired := 0, errors := ["Fetch error: " ++ msg] }, [])
  | none =>
      let toCheck := reverifySelect now rows
      let stepped := toCheck.map (fun r => reverifyStep now nowIso r (outcome r))
      ({ checked := toCheck.length,
         expired := (stepped.filter (fun p => p.2)).length,
         errors := [] },
       stepped.map (fun p => p.1))

/-! ## Concrete instances used in closed statements -/

/-- A benign posting: no red flags, salary not listed. -/
def benignJob : ScrapedJob :=
  { title := "Junior Developer", company := "Acme", location := "Remote",
    locationType := "REMOTE", applyUrl := "https://example.com/job",
    sourceUrl := "https://example.com/source", source := "remoteok" }

/-- A posting exhibiting a textual red flag, an unrealistic salary minimum
and a vague company name. -/
def flaggedJob : ScrapedJob :=
  { benignJob with
    title := "Guaranteed income now",
    company := "xx",
    salaryMin := some 250000 }

/-- A posting with none of the rule engine's signals: a 150-character bland
description, a real company name, no salary and a non-ATS apply URL. -/
def neutralJob : ScrapedJob :=
  { benignJob with
    title := "Software Developer",
    description := some (String.mk (List.replicate 150 'x')) }

/-- A posting accepted via the REVIEW-with-default-score path. -/
def reviewJob : ScrapedJob :=
  { benignJob with
    title := "Backend Developer",
    applyUrl := "https://example.com/backend",
    sourceUrl := "https://example.com/backend-src" }

/-- The benign posting again, with a different apply URL but the same
company and title. -/
def dupJob : ScrapedJob :=
  { benignJob with applyUrl := "https://other.example.com/job2" }

/-- An assessment that rejects a posting outright. -/
def rejectAnalysis : AIAnalysisResult :=
  { legitimacyScore := 10, isLikelyGhostJob := true,
    concerns := ["Vague description"], positiveSignals := [],
    recommendation := "REJECT", reasoning := "Looks fabricated" }

/-- A stored VERIFIED record last verified at epoch 0. -/
def staleRecord : JobRecord :=
  { id := "job-1", applyUrl := "https://example.com/apply",
    verificationStatus := "VERIFIED", lastVerifiedAt := some 0,
    verificationNotes := "ok" }

/-! ## Helper lemmas -/

theorem startsList_append_self (n b : List Char) :
    startsList n (n ++ b) = true := by
  induction n with
  | nil => rfl
  | cons c s ih => simp [startsList, ih]

theorem containsList_of_startsList (n h : List Char)
    (hs : startsList n h = true) : containsList n h = true := by
  cases h with
  | nil => simpa [containsList] using hs
  | cons c cs => simp [containsList, hs]

theorem containsList_middle (a n b : List Char) :
    containsList n (a ++ n ++ b) = true := by
  induction a with
  | nil =>
    exact containsList_of_startsList n (n ++ b)
      (by simpa using startsList_append_self n b)
  | cons c rest ih =>
    simp only [containsList, List.cons_append, Bool.or_eq_true]
    exact Or.inr (by simpa using ih)

/-- A string built around `n` contains `n`. -/
theorem strContains_middle (a n b : String) :
    strContains (a ++ n ++ b) n = true := by
  have hd : (a ++ n ++ b).data = a.data ++ n.data ++ b.data := rfl
  simp only [strContains, hd]
  exact containsList_middle a.data n.data b.data

/-- A search for a single case-insensitive literal succeeds whenever the
literal occurs as a case-insensitive substring. -/
theorem rsearch_lit (n : String) (h : List Char)
    (hc : ciContainsList n.data h = true) : rsearch [RTok.lit n] h = true := by
  induction h with
  | nil =>
    simp only [ciContainsList] at hc
    simp [rsearch, matchHere, hc]
  | cons c cs ih =>
    simp only [ciContainsList, Bool.or_eq_true] at hc
    rcases hc with h1 | h1
    · simp [rsearch, matchHere, h1]
    · simp [rsearch, matchHere, ih h1]

theorem mem_ite_append {x : String} {l : List String} (c : Prop)
    [Decidable c] (s : String) (h : x ∈ l) :
    x ∈ (if c then l ++ [s] else l) := by
  split
  · exact List.mem_append_left _ h
  · exact h

/-- Any matching pattern of the table contributes its label to the red-flag
list. -/
theorem detectRedFlags_mem_of_pattern (job : ScrapedJob)
    (pat : List (List RTok)) (flag : String)
    (hmem : (pat, flag) ∈ RED_FLAG_PATTERNS)
    (ht : rtest pat (redFlagText job).data = true) :
    flag ∈ detectRedFlags job := by
  have h1 : flag ∈ RED_FLAG_PATTERNS.filterMap
      (fun pf => if rtest pf.1 (redFlagText job).data then some pf.2 else none) :=
    List.mem_filterMap.mpr ⟨(pat, flag), hmem, by simp [ht]⟩
  simp only [detectRedFlags]
  exact mem_ite_append _ _ (mem_ite_append _ _ h1)

/-- The verification notes built by the pipeline's insert step contain the
embedded score fragment. -/
theorem strContains_score (s v : String) :
    strContains ("Auto-verified. Score: " ++ s ++ "/100. " ++ v)
      ("Score: " ++ s ++ "/100") = true := by
  have h1 : "Auto-verified. Score: ".data =
      "Auto-verified. ".data ++ "Score: ".data := by decide
  have h2 : "/100. ".data = "/100".data ++ ". ".data := by decide
  have hd : ("Auto-verified. Score: " ++ s ++ "/100. " ++ v).data =
      "Auto-verified. ".data ++ ("Score: " ++ s ++ "/100").data ++
        (". " ++ v).data := by
    show "Auto-verified. Score: ".data ++ s.data ++ "/100. ".data ++ v.data =
      "Auto-verified. ".data ++ ("Score: ".data ++ s.data ++ "/100".data) ++
        (". ".data ++ v.data)
    rw [h1, h2]
    simp [List.append_assoc]
  simp only [strContains, hd]
  exact containsList_middle _ _ _

/-! ## Claims -/

/-- C1 (counterexample): a candidate whose verdict has
`companyDomainValid = false` (hence `isValid = false`), but whose apply URL
is accessible and which has no red flags, is nevertheless kept for scoring by
the ingestion run, contradicting the claim that the candidate is kept if and
only if its verdict is valid. -/
theorem C1_counterexample :
    (verifyJob benignJob ⟨true, some 200⟩ false).isValid = false ∧
    (verifyJob benignJob ⟨true, some 200⟩ false).companyDomainValid = false ∧
    keepAfterVerification (verifyJob benignJob ⟨true, some 200⟩ false) = true ∧
    benignJob ∈ validJobsOf (newJobsOf [benignJob] [])
      (fun _ => verifyJob benignJob ⟨true, some 200⟩ false) := by
  refine ⟨by decide, rfl, by decide, ?_⟩
  decide

/-- C1 (amended): a candidate reaching the verification stage is kept for
scoring if and only if its verdict's apply URL is accessible and it matched
zero red flags; `companyDomainValid` is not consulted by the keep filter,
although the verdict's `isValid` field is still the conjunction of all three
checks. -/
theorem C1_kept_iff_accessible_and_clean (job : ScrapedJob) (url : UrlCheck)
    (d : Bool) (jobs : List ScrapedJob) (existingUrls : List String)
    (verify : ScrapedJob → VerificationResult) (j : ScrapedJob) :
    ((verifyJob job url d).isValid =
      ((verifyJob job url d).urlAccessible &&
        ((verifyJob job url d).companyDomainValid &&
          !(verifyJob job url d).hasRedFlags))) ∧
    (j ∈ validJobsOf (newJobsOf jobs existingUrls) verify ↔
      (j ∈ newJobsOf jobs existingUrls ∧ (verify j).urlAccessible = true ∧
        (verify j).hasRedFlags = false)) := by
  constructor
  · simp [verifyJob, Bool.and_assoc]
  · simp [validJobsOf, keepAfterVerification, List.mem_filter,
      Bool.and_eq_true, Bool.not_eq_true', and_assoc]

/-- C5 (counterexample): a VERIFIED record whose last-verified timestamp sits
exactly at the 48-hour boundary is still selected by the public listing
query (the query uses a non-strict `gte` bound), contradicting the claimed
strict-inequality exclusion. -/
theorem C5_counterexample :
    publicListingEligible (48 * MS_PER_HOUR) "VERIFIED" (some 0) = true := by
  decide

/-- C5 (amended): a record is eligible for public display if and only if its
status is VERIFIED and its last-verified timestamp is at most 48 hours old
(the exact 48-hour boundary included: age > 48h excluded, age ≤ 48h
included, a non-strict comparison). -/
theorem C5_public_listing_eligibility (now : Int) (status : String)
    (t : Option Int) :
    publicListingEligible now status t = true ↔
      (status = "VERIFIED" ∧ ∃ v, t = some v ∧ now - 48 * MS_PER_HOUR ≤ v) := by
  cases t with
  | none => simp [publicListingEligible]
  | some v => simp [publicListingEligible, and_comm]

/-- C4: the rule-based fallback scorer returns 70 plus exactly the listed
adjustments for the signals present (urgency −15, contradictory
requirements −20, undisclosed company −15, short description −10,
guaranteed-income claims −25, valid salary range +10, team language +5,
known ATS apply URL +10, long description +5), clamped to `[0, 100]`;
`ghostJobLikely` holds iff the score is below 50; the recommendation is
APPROVE iff score ≥ 70, REVIEW iff 50 ≤ score < 70, REJECT iff score < 50;
and a posting with no signals present scores exactly 70.  The engine is a
total function, so it always produces a result. -/
theorem C4_rule_engine_fallback (job : ScrapedJob) :
    ((analyzeWithRules job).legitimacyScore =
      max 0 (min 100 (70 -
        (if urgencySignal job then 15 else 0) -
        (if contradictionSignal job then 20 else 0) -
        (if undisclosedSignal job then 15 else 0) -
        (if shortDescSignal job then 10 else 0) -
        (if guaranteedSignal job then 25 else 0) +
        (if salarySignal job then 10 else 0) +
        (if teamSignal job then 5 else 0) +
        (if atsSignal job then 10 else 0) +
        (if longDescSignal job then 5 else 0)))) ∧
    (0 ≤ (analyzeWithRules job).legitimacyScore ∧
      (analyzeWithRules job).legitimacyScore ≤ 100) ∧
    ((analyzeWithRules job).isLikelyGhostJob = true ↔
      (analyzeWithRules job).legitimacyScore < 50) ∧
    ((analyzeWithRules job).recommendation = "APPROVE" ↔
      70 ≤ (analyzeWithRules job).legitimacyScore) ∧
    ((analyzeWithRules job).recommendation = "REVIEW" ↔
      (50 ≤ (analyzeWithRules job).legitimacyScore ∧
        (analyzeWithRules job).legitimacyScore < 70)) ∧
    ((analyzeWithRules job).recommendation = "REJECT" ↔
      (analyzeWithRules job).legitimacyScore < 50) ∧
    (urgencySignal job = false → contradictionSignal job = false →
      undisclosedSignal job = false → shortDescSignal job = false →
      guaranteedSignal job = false → salarySignal job = false →
      teamSignal job = false → atsSignal job = false →
      longDescSignal job = false →
      (analyzeWithRules job).legitimacyScore = 70) := by
  have hscore : (analyzeWithRules job).legitimacyScore =
      max 0 (min 100 (ruleScoreRaw job)) := rfl
  have hghost : (analyzeWithRules job).isLikelyGhostJob =
      decide ((analyzeWithRules job).legitimacyScore < 50) := rfl
  have hrec : (analyzeWithRules job).recommendation =
      (if (analyzeWithRules job).legitimacyScore ≥ 70 then "APPROVE"
       else if (analyzeWithRules job).legitimacyScore ≥ 50 then "REVIEW"
       else "REJECT") := rfl
  refine ⟨hscore, ?_, ?_, ?_, ?_, ?_, ?_⟩
  · rw [hscore]; omega
  · rw [hghost]; simp
  · rw [hrec]; split_ifs <;> simp_all
  · rw [hrec]; split_ifs <;> simp_all
  · rw [hrec]; split_ifs <;> simp_all
    omega
  · intro h1 h2 h3 h4 h5 h6 h7 h8 h9
    rw [hscore]
    simp [ruleScoreRaw, h1, h2, h3, h4, h5, h6, h7, h8, h9]

set_option maxRecDepth 8192 in
/-- Witness for C4: the neutral posting has no signals and scores exactly
the baseline 70 with recommendation APPROVE (70 ≥ 70). -/
theorem C4_rule_engine_fallback_witness :
    (analyzeWithRules neutralJob).legitimacyScore = 70 ∧
    70 ≤ (analyzeWithRules neutralJob).legitimacyScore :=
  ⟨(C4_rule_engine_fallback neutralJob).2.2.2.2.2.2 (by decide) (by decide)
      (by decide) (by decide) (by decide) (by decide) (by decide) (by decide)
      (by decide),
   (C4_rule_engine_fallback neutralJob).2.2.2.1.mp (by decide)⟩

/-- C8: the red-flag scan is a deterministic function of the posting's
fields: a case-insensitive occurrence of "guaranteed income" in the
title-plus-description text yields the guaranteed-income label, a salary
minimum above 200000 yields the unrealistic-salary label, and a company
name under 3 characters or equal (case-insensitively) to "company" or
"confidential" yields the vague-company label. -/
theorem C8_red_flag_scan (job : ScrapedJob) :
    (strContainsCI (redFlagText job) "guaranteed income" = true →
      "Guaranteed income claims" ∈ detectRedFlags job) ∧
    (∀ m : Int, job.salaryMin = some m → m > 200000 →
      "Unrealistic entry-level salary (>$200k)" ∈ detectRedFlags job) ∧
    ((job.company.length < 3 ∨ lowerStr job.company = "company" ∨
        lowerStr job.company = "confidential") →
      "Vague or confidential company name" ∈ detectRedFlags job) := by
  refine ⟨?_, ?_, ?_⟩
  · intro h
    refine detectRedFlags_mem_of_pattern job
      [[ RTok.lit "guaranteed income" ]] _ (by simp [RED_FLAG_PATTERNS]) ?_
    simpa [rtest] using
      rsearch_lit "guaranteed income" (redFlagText job).data h
  · intro m hm hgt
    have h0 : m ≠ 0 := by omega
    simp only [detectRedFlags, hm]
    have hcond : (jsTruthyInt (some m) &&
        decide ((some m).getD 0 > 200000)) = true := by
      simp [jsTruthyInt, h0, hgt]
    rw [hcond]
    simp only [if_true]
    exact mem_ite_append _ _ (List.mem_append_right _ (by simp))
  · intro hc
    have hcond : (decide (job.company.length < 3) ||
        lowerStr job.company == "company" ||
        lowerStr job.company == "confidential") = true := by
      rcases hc with h | h | h <;> simp [h]
    simp only [detectRedFlags, hcond, if_true]
    exact List.mem_append_right _ (by simp)

/-- Witness for C8 at the flagged posting: all three hypotheses hold and all
three labels are in the scan result. -/
theorem C8_red_flag_scan_witness :
    strContainsCI (redFlagText flaggedJob) "guaranteed income" = true ∧
    "Guaranteed income claims" ∈ detectRedFlags flaggedJob ∧
    "Unrealistic entry-level salary (>$200k)" ∈ detectRedFlags flaggedJob ∧
    "Vague or confidential company name" ∈ detectRedFlags flaggedJob :=
  ⟨by decide,
   (C8_red_flag_scan flaggedJob).1 (by decide),
   (C8_red_flag_scan flaggedJob).2.1 250000 (by decide) (by decide),
   (C8_red_flag_scan flaggedJob).2.2 (Or.inl (by decide))⟩

/-- C2: a scored survivor is accepted for persistence if and only if its
assessment's recommendation is APPROVE, or REVIEW with score ≥ 60; the row
inserted for an accepted posting has status VERIFIED with the fresh
timestamp when the recommendation is APPROVE, and otherwise status PENDING
with a null timestamp; and the verification notes embed the score. -/
theorem C2_persistence_decision (now : Int) (jobs : List ScrapedJob)
    (existingUrls : List String) (verify : ScrapedJob → VerificationResult)
    (analyze : ScrapedJob → Option AIAnalysisResult) (j : ScrapedJob)
    (hj : j ∈ validJobsOf (newJobsOf jobs existingUrls) verify) :
    (j ∈ approvedJobsOf (validJobsOf (newJobsOf jobs existingUrls) verify)
        analyze ↔
      ((analysisOf analyze j).recommendation = "APPROVE" ∨
        ((analysisOf analyze j).recommendation = "REVIEW" ∧
          60 ≤ (analysisOf analyze j).legitimacyScore))) ∧
    ((analysisOf analyze j).recommendation = "APPROVE" →
      ((mkInsertRow now j (verify j) (analysisOf analyze j)).verificationStatus
          = "VERIFIED" ∧
        (mkInsertRow now j (verify j) (analysisOf analyze j)).lastVerifiedAt
          = some now)) ∧
    ((analysisOf analyze j).recommendation ≠ "APPROVE" →
      ((mkInsertRow now j (verify j) (analysisOf analyze j)).verificationStatus
          = "PENDING" ∧
        (mkInsertRow now j (verify j) (analysisOf analyze j)).lastVerifiedAt
          = none)) ∧
    strContains
      (mkInsertRow now j (verify j) (analysisOf analyze j)).verificationNotes
      ("Score: " ++ toString (analysisOf analyze j).legitimacyScore ++ "/100")
      = true := by
  refine ⟨?_, ?_, ?_, ?_⟩
  · simp [approvedJobsOf, List.mem_filter, hj, acceptsAnalysis]
  · intro h
    simp [mkInsertRow, h]
  · intro h
    simp [mkInsertRow, h]
  · exact strContains_score _ _

/-- Witness for C2: with no analysis available the default REVIEW/70
assessment is used, the posting is accepted (70 ≥ 60) and the row is
PENDING with a null timestamp and the score in the notes. -/
theorem C2_persistence_decision_witness :
    benignJob ∈ approvedJobsOf
      (validJobsOf (newJobsOf [benignJob] [])
        (fun j => verifyJob j ⟨true, some 200⟩ true)) (fun _ => none) ∧
    (mkInsertRow 0 benignJob
        (verifyJob benignJob ⟨true, some 200⟩ true)
        (analysisOf (fun _ => none) benignJob)).verificationStatus
      = "PENDING" ∧
    (mkInsertRow 0 benignJob
        (verifyJob benignJob ⟨true, some 200⟩ true)
        (analysisOf (fun _ => none) benignJob)).lastVerifiedAt = none ∧
    strContains
      (mkInsertRow 0 benignJob (verifyJob benignJob ⟨true, some 200⟩ true)
        (analysisOf (fun _ => none) benignJob)).verificationNotes
      ("Score: " ++
        toString (analysisOf (fun _ => none) benignJob).legitimacyScore ++
        "/100") = true :=
  ⟨(C2_persistence_decision 0 [benignJob] []
      (fun j => verifyJob j ⟨true, some 200⟩ true) (fun _ => none) benignJob
      (by decide)).1.mpr (Or.inr ⟨rfl, by decide⟩),
   ((C2_persistence_decision 0 [benignJob] []
      (fun j => verifyJob j ⟨true, some 200⟩ true) (fun _ => none) benignJob
      (by decide)).2.2.1 (by decide)).1,
   ((C2_persistence_decision 0 [benignJob] []
      (fun j => verifyJob j ⟨true, some 200⟩ true) (fun _ => none) benignJob
      (by decide)).2.2.1 (by decide)).2,
   (C2_persistence_decision 0 [benignJob] []
      (fun j => verifyJob j ⟨true, some 200⟩ true) (fun _ => none) benignJob
      (by decide)).2.2.2⟩

/-- C3 (counterexample): a run with one new candidate that passes
verification but whose assessment is REJECT drops the candidate without
counting it: the candidate is neither skipped nor added, yet failedCount is
0 — contradicting the claim that every candidate neither skipped nor added
is counted as failed. -/
theorem C3_counterexample :
    (runPipeline 0 [benignJob] []
        (fun j => verifyJob j ⟨true, some 200⟩ true)
        (fun _ => some rejectAnalysis) (fun _ => true)).1.scrapedCount = 1 ∧
    (runPipeline 0 [benignJob] []
        (fun j => verifyJob j ⟨true, some 200⟩ true)
        (fun _ => some rejectAnalysis) (fun _ => true)).1.skippedCount = 0 ∧
    (runPipeline 0 [benignJob] []
        (fun j => verifyJob j ⟨true, some 200⟩ true)
        (fun _ => some rejectAnalysis) (fun _ => true)).1.addedCount = 0 ∧
    (runPipeline 0 [benignJob] []
        (fun j => verifyJob j ⟨true, some 200⟩ true)
        (fun _ => some rejectAnalysis) (fun _ => true)).1.failedCount = 0 := by
  decide

/-- C3 (amended): the returned failedCount counts exactly the new candidates
that failed verification plus the accepted candidates whose insert failed;
scored survivors rejected by the acceptance test (not APPROVE and not
REVIEW with score ≥ 60) are dropped without being counted. -/
theorem C3_failed_count (now : Int) (jobs : List ScrapedJob)
    (existingUrls : List String) (verify : ScrapedJob → VerificationResult)
    (analyze : ScrapedJob → Option AIAnalysisResult)
    (insertOk : ScrapedJob → Bool) :
    (runPipeline now jobs existingUrls verify analyze insertOk).1.failedCount =
      ((newJobsOf jobs existingUrls).filter
        (fun j => !keepAfterVerification (verify j))).length +
      ((approvedJobsOf (validJobsOf (newJobsOf jobs existingUrls) verify)
          analyze).filter (fun j => !insertOk j)).length := by
  unfold runPipeline
  split
  · next hempty =>
    have : jobs = [] := List.isEmpty_iff.mp hempty
    subst this
    simp [newJobsOf, validJobsOf, approvedJobsOf]
  · dsimp only
    split
    · next hnew =>
      have h0 : newJobsOf jobs existingUrls = [] := List.isEmpty_iff.mp hnew
      simp [h0, validJobsOf, approvedJobsOf]
    · split
      · next hvalid =>
        have h0 : validJobsOf (newJobsOf jobs existingUrls) verify = [] :=
          List.isEmpty_iff.mp hvalid
        have hall : ∀ j ∈ newJobsOf jobs existingUrls,
            keepAfterVerification (verify j) = false := by
          intro j hjmem
          by_contra hne
          have : j ∈ validJobsOf (newJobsOf jobs existingUrls) verify :=
            List.mem_filter.mpr ⟨hjmem, by simpa using hne⟩
          simp [h0] at this
        have hfil : (newJobsOf jobs existingUrls).filter
            (fun j => !keepAfterVerification (verify j)) =
            newJobsOf jobs existingUrls := by
          apply List.filter_eq_self.mpr
          intro j hjmem
          simp [hall j hjmem]
        simp [h0, approvedJobsOf, hfil]
      · have hsplit := List.length_eq_length_filter_add
          (fun j => keepAfterVerification (verify j))
          (l := newJobsOf jobs existingUrls)
        have hins := List.length_eq_length_filter_add insertOk
          (l := approvedJobsOf (validJobsOf (newJobsOf jobs existingUrls)
            verify) analyze)
        simp only [insertedRowsOf, List.length_map, validJobsOf,
          approvedJobsOf] at hsplit hins ⊢
        omega

theorem dedupGo_count (l : List ScrapedJob) :
    ∀ (seen : List String) (k : String),
      ((dedupGo seen l).map jobKey).count k =
        (if k ∈ seen then 0
         else if k ∈ l.map jobKey then 1 else 0) := by
  induction l with
  | nil => intro seen k; simp [dedupGo]
  | cons j rest ih =>
    intro seen k
    by_cases hseen : jobKey j ∈ seen
    · by_cases hks : k ∈ seen
      · simp [dedupGo, hseen, ih, hks]
      · have hne : ¬k = jobKey j := fun h => hks (h ▸ hseen)
        simp [dedupGo, hseen, ih, hks, hne]
    · by_cases hjk : k = jobKey j
      · subst hjk
        simp [dedupGo, hseen, ih, List.count_cons]
      · simp [dedupGo, hseen, ih, List.count_cons, hjk]

theorem dedupGo_findFirst (l : List ScrapedJob) :
    ∀ (seen : List String) (k : String), k ∉ seen →
      (dedupGo seen l).find? (fun j => jobKey j == k) =
        l.find? (fun j => jobKey j == k) := by
  induction l with
  | nil => intro seen k _; simp [dedupGo]
  | cons j rest ih =>
    intro seen k hk
    by_cases hseen : jobKey j ∈ seen
    · have hne : (jobKey j == k) = false := by
        refine beq_eq_false_iff_ne.mpr ?_
        intro h
        exact hk (h ▸ hseen)
      simp [dedupGo, hseen, List.find?, hne, ih seen k hk]
    · by_cases hjk : jobKey j = k
      · simp [dedupGo, hseen, List.find?, hjk, hk]
      · have hk2 : k ∉ jobKey j :: seen := by
          simp only [List.mem_cons, not_or]
          exact ⟨fun h => hjk h.symm, hk⟩
        have hne : (jobKey j == k) = false := beq_eq_false_iff_ne.mpr hjk
        simp [dedupGo, hseen, List.find?, hne, ih (jobKey j :: seen) k hk2]

/-- C7: batch aggregation dedups by the normalized key (lower-cased company,
lower-cased title): two postings with equal normalized company and title
have the same key even when their URLs differ; the aggregated output
contains exactly one posting per key occurring in the input; and the unique
survivor for each key is the first posting with that key in concatenation
order. -/
theorem C7_batch_dedup (jobs : List ScrapedJob) (k : String)
    (a b : ScrapedJob)
    (hc : lowerStr a.company = lowerStr b.company)
    (ht : lowerStr a.title = lowerStr b.title) :
    jobKey a = jobKey b ∧
    (((scrapeDedup jobs).map jobKey).count k =
      (if (jobs.map jobKey).contains k then 1 else 0)) ∧
    ((scrapeDedup jobs).find? (fun j => jobKey j == k) =
      jobs.find? (fun j => jobKey j == k)) := by
  refine ⟨by simp [jobKey, hc, ht], ?_, ?_⟩
  · simpa using dedupGo_count jobs [] k
  · exact dedupGo_findFirst jobs [] k (by simp)

/-- Witness for C7: two postings sharing company and title but with
different apply URLs; the output keeps exactly one posting for that key,
namely the first. -/
theorem C7_batch_dedup_witness :
    jobKey benignJob = jobKey dupJob ∧
    (((scrapeDedup [benignJob, dupJob]).map jobKey).count (jobKey benignJob) =
      (if ([benignJob, dupJob].map jobKey).contains (jobKey benignJob) then 1
       else 0)) ∧
    ((scrapeDedup [benignJob, dupJob]).find?
        (fun j => jobKey j == jobKey benignJob) =
      [benignJob, dupJob].find? (fun j => jobKey j == jobKey benignJob)) :=
  C7_batch_dedup [benignJob, dupJob] (jobKey benignJob) benignJob dupJob
    (by decide) (by decide)

/-- C9: the re-verification sweep selects exactly the VERIFIED records whose
last-verified timestamp is older than 24 hours; a response with status in
[200, 400) refreshes the timestamp and notes without expiring; any other
status demotes the record to BROKEN_LINK with a note containing the observed
status and increments the expired counter; a timeout or network error also
demotes to BROKEN_LINK and increments the counter; and the returned result
reports the number checked, the number expired, and the errors. -/
theorem C9_reverification (now : Int) (nowIso : String)
    (rows : List JobRecord) (outcome : JobRecord → FetchOutcome)
    (r : JobRecord) (s : Int) :
    (r ∈ reverifySelect now rows ↔
      (r ∈ rows ∧ r.verificationStatus = "VERIFIED" ∧
        ∃ t, r.lastVerifiedAt = some t ∧ t < now - 24 * MS_PER_HOUR)) ∧
    (200 ≤ s → s < 400 →
      reverifyStep now nowIso r (.response s) =
        ({ r with lastVerifiedAt := some now,
                  verificationNotes := "Re-verified at " ++ nowIso }, false)) ∧
    (¬(200 ≤ s ∧ s < 400) →
      ((reverifyStep now nowIso r (.response s)).1.verificationStatus =
          "BROKEN_LINK" ∧
        strContains
          (reverifyStep now nowIso r (.response s)).1.verificationNotes
          (toString s) = true ∧
        (reverifyStep now nowIso r (.response s)).2 = true)) ∧
    ((reverifyStep now nowIso r .failure).1.verificationStatus =
        "BROKEN_LINK" ∧
      (reverifyStep now nowIso r .failure).1.verificationNotes =
        "Link unreachable at " ++ nowIso ∧
      (reverifyStep now nowIso r .failure).2 = true) ∧
    ((reverifyExistingJobs now nowIso rows outcome none).1.checked =
        (reverifySelect now rows).length ∧
      (reverifyExistingJobs now nowIso rows outcome none).1.expired =
        ((reverifySelect now rows).filter
          (fun x => (reverifyStep now nowIso x (outcome x)).2)).length ∧
      (reverifyExistingJobs now nowIso rows outcome none).1.errors = []) := by
  refine ⟨?_, ?_, ?_, ⟨rfl, rfl, rfl⟩, ?_, ?_, rfl⟩
  · simp only [reverifySelect, List.mem_filter, Bool.and_eq_true, beq_iff_eq]
    cases h : r.lastVerifiedAt with
    | none => simp [h]
    | some t => simp [h, and_assoc]
  · intro h1 h2
    simp [reverifyStep, h1, h2]
  · intro hns
    refine ⟨by simp [reverifyStep, hns], ?_, by simp [reverifyStep, hns]⟩
    have hnotes :
        (reverifyStep now nowIso r (.response s)).1.verificationNotes =
          "Link broken (HTTP " ++ toString s ++ ") at " ++ nowIso := by
      simp [reverifyStep, hns]
    rw [hnotes]
    show containsList (toString s).data
      ((("Link broken (HTTP ".data ++ (toString s).data) ++ ") at ".data) ++
        nowIso.data) = true
    rw [List.append_assoc ("Link broken (HTTP ".data ++ (toString s).data)]
    exact containsList_middle "Link broken (HTTP ".data (toString s).data
      (") at ".data ++ nowIso.data)
  · rfl
  · simp only [reverifyExistingJobs, List.filter_map, List.length_map]
    rfl

/-- Witness for C9: a VERIFIED record last verified 30 hours ago whose apply
URL now returns 404 is selected, transitioned to BROKEN_LINK with a note
containing "404", and counted as expired. -/
theorem C9_reverification_witness :
    staleRecord ∈ reverifySelect 108000000 [staleRecord] ∧
    (reverifyStep 108000000 "iso" staleRecord
        (.response 404)).1.verificationStatus = "BROKEN_LINK" ∧
    strContains (reverifyStep 108000000 "iso" staleRecord
        (.response 404)).1.verificationNotes (toString (404 : Int)) = true ∧
    (reverifyStep 108000000 "iso" staleRecord (.response 404)).2 = true ∧
    (reverifyExistingJobs 108000000 "iso" [staleRecord]
        (fun _ => .response 404) none).1.checked = 1 ∧
    (reverifyExistingJobs 108000000 "iso" [staleRecord]
        (fun _ => .response 404) none).1.expired = 1 := by
  have h := C9_reverification 108000000 "iso" [staleRecord]
    (fun _ => FetchOutcome.response 404) staleRecord 404
  refine ⟨?_, ?_, ?_, ?_, ?_, ?_⟩
  · exact h.1.mpr ⟨by decide, by decide, 0, by decide, by decide⟩
  · exact (h.2.2.1 (by decide)).1
  · exact (h.2.2.1 (by decide)).2.1
  · exact (h.2.2.1 (by decide)).2.2
  · rw [h.2.2.2.2.1]; decide
  · rw [h.2.2.2.2.2.1]; decide

/-- When every insert succeeds, the row of every accepted posting appears in
the pipeline's inserted output. -/
theorem mem_inserted_of_approved (now : Int) (jobs : List ScrapedJob)
    (existingUrls : List String) (verify : ScrapedJob → VerificationResult)
    (analyze : ScrapedJob → Option AIAnalysisResult) (j : ScrapedJob)
    (hj : j ∈ approvedJobsOf (validJobsOf (newJobsOf jobs existingUrls) verify)
      analyze) :
    mkInsertRow now j (verify j) (analysisOf analyze j) ∈
      (runPipeline now jobs existingUrls verify analyze (fun _ => true)).2 := by
  have hjv : j ∈ validJobsOf (newJobsOf jobs existingUrls) verify :=
    (List.mem_filter.mp hj).1
  have hjn : j ∈ newJobsOf jobs existingUrls := (List.mem_filter.mp hjv).1
  have hjj : j ∈ jobs := (List.mem_filter.mp hjn).1
  unfold runPipeline
  split
  · next he =>
    rw [List.isEmpty_iff.mp he] at hjj
    simp at hjj
  · dsimp only
    split
    · next he =>
      rw [List.isEmpty_iff.mp he] at hjn
      simp at hjn
    · split
      · next he =>
        rw [List.isEmpty_iff.mp he] at hjv
        simp at hjv
      · simp only [insertedRowsOf, List.filter_true, List.mem_map]
        exact ⟨j, hj, rfl⟩

/-- C10: a verification survivor with no assessment receives the default
(score 70, REVIEW, no concerns, reasoning "No AI analysis available"), is
accepted because 70 ≥ 60, and is persisted with status PENDING and a null
last-verified timestamp — it is never dropped for lack of an assessment. -/
theorem C10_default_assessment (now : Int) (jobs : List ScrapedJob)
    (existingUrls : List String) (verify : ScrapedJob → VerificationResult)
    (analyze : ScrapedJob → Option AIAnalysisResult) (j : ScrapedJob)
    (hj : j ∈ validJobsOf (newJobsOf jobs existingUrls) verify)
    (ha : analyze j = none) :
    analysisOf analyze j = defaultAnalysis ∧
    defaultAnalysis.legitimacyScore = 70 ∧
    defaultAnalysis.recommendation = "REVIEW" ∧
    defaultAnalysis.concerns = [] ∧
    defaultAnalysis.reasoning = "No AI analysis available" ∧
    acceptsAnalysis defaultAnalysis = true ∧
    j ∈ approvedJobsOf (validJobsOf (newJobsOf jobs existingUrls) verify)
      analyze ∧
    (mkInsertRow now j (verify j) (analysisOf analyze j)).verificationStatus =
      "PENDING" ∧
    (mkInsertRow now j (verify j) (analysisOf analyze j)).lastVerifiedAt =
      none ∧
    mkInsertRow now j (verify j) (analysisOf analyze j) ∈
      (runPipeline now jobs existingUrls verify analyze (fun _ => true)).2 := by
  have hdef : analysisOf analyze j = defaultAnalysis := by
    simp [analysisOf, ha]
  have happr : j ∈ approvedJobsOf
      (validJobsOf (newJobsOf jobs existingUrls) verify) analyze :=
    List.mem_filter.mpr ⟨hj, by rw [hdef]; decide⟩
  refine ⟨hdef, rfl, rfl, rfl, rfl, by decide, happr, ?_, ?_,
    mem_inserted_of_approved now jobs existingUrls verify analyze j happr⟩
  · rw [hdef]; rfl
  · rw [hdef]; rfl

/-- Witness for C10: the benign posting survives verification, has no
assessment, and is persisted PENDING with no timestamp. -/
theorem C10_default_assessment_witness :
    analysisOf (fun _ => none) reviewJob = defaultAnalysis ∧
    reviewJob ∈ approvedJobsOf
      (validJobsOf (newJobsOf [reviewJob] [])
        (fun j => verifyJob j ⟨true, some 200⟩ true)) (fun _ => none) ∧
    (mkInsertRow 5 reviewJob
        (verifyJob reviewJob ⟨true, some 200⟩ true)
        (analysisOf (fun _ => none) reviewJob)).verificationStatus =
      "PENDING" ∧
    mkInsertRow 5 reviewJob (verifyJob reviewJob ⟨true, some 200⟩ true)
        (analysisOf (fun _ => none) reviewJob) ∈
      (runPipeline 5 [reviewJob] []
        (fun j => verifyJob j ⟨true, some 200⟩ true) (fun _ => none)
        (fun _ => true)).2 := by
  have h := C10_default_assessment 5 [reviewJob] []
    (fun j => verifyJob j ⟨true, some 200⟩ true) (fun _ => none) reviewJob
    (by decide) rfl
  exact ⟨h.1, h.2.2.2.2.2.2.1, h.2.2.2.2.2.2.2.1, h.2.2.2.2.2.2.2.2.2⟩

/-- C6: pre-verification dedup removes exactly the aggregator outputs whose
apply URL or source URL is already stored (counting them as skipped), and a
second ingestion run against the same upstream and the store left by a
first run (whose inserts all succeeded) adds nothing. -/
theorem C6_rerun_adds_nothing (now now2 : Int) (jobs : List ScrapedJob)
    (existingUrls : List String) (verify : ScrapedJob → VerificationResult)
    (analyze : ScrapedJob → Option AIAnalysisResult)
    (insertOk2 : ScrapedJob → Bool) (j0 : ScrapedJob) :
    (j0 ∈ newJobsOf jobs existingUrls ↔
      (j0 ∈ jobs ∧ existingUrls.contains j0.applyUrl = false ∧
        existingUrls.contains j0.sourceUrl = false)) ∧
    ((runPipeline now jobs existingUrls verify analyze insertOk2).1.skippedCount
      = jobs.length - (newJobsOf jobs existingUrls).length) ∧
    ((runPipeline now2 jobs
        (existingUrls ++
          ((runPipeline now jobs existingUrls verify analyze
            (fun _ => true)).2.map JobInsertRow.applyUrl) ++
          ((runPipeline now jobs existingUrls verify analyze
            (fun _ => true)).2.map JobInsertRow.sourceUrl))
        verify analyze insertOk2).1.addedCount = 0) := by
  refine ⟨?_, ?_, ?_⟩
  · simp [newJobsOf, List.mem_filter, Bool.and_eq_true, Bool.not_eq_true',
      and_assoc]
  · unfold runPipeline
    split
    · next he =>
      rw [List.isEmpty_iff.mp he]
      simp [newJobsOf]
    · dsimp only
      split
      · rfl
      · split <;> rfl
  · set store2 := existingUrls ++
      ((runPipeline now jobs existingUrls verify analyze
        (fun _ => true)).2.map JobInsertRow.applyUrl) ++
      ((runPipeline now jobs existingUrls verify analyze
        (fun _ => true)).2.map JobInsertRow.sourceUrl) with hstore2
    have happr2 : approvedJobsOf (validJobsOf (newJobsOf jobs store2) verify)
        analyze = [] := by
      rw [List.eq_nil_iff_forall_not_mem]
      intro j hjmem
      have hjv2 : j ∈ validJobsOf (newJobsOf jobs store2) verify :=
        (List.mem_filter.mp hjmem).1
      have hacc : acceptsAnalysis (analysisOf analyze j) = true :=
        (List.mem_filter.mp hjmem).2
      have hjn2 : j ∈ newJobsOf jobs store2 := (List.mem_filter.mp hjv2).1
      have hkeep : keepAfterVerification (verify j) = true :=
        (List.mem_filter.mp hjv2).2
      have hjj : j ∈ jobs := (List.mem_filter.mp hjn2).1
      have hnotin : j.applyUrl ∉ store2 := by
        have := (List.mem_filter.mp hjn2).2
        simp only [Bool.and_eq_true, Bool.not_eq_true'] at this
        simpa using this.1
      have hex1 : j.applyUrl ∉ existingUrls := by
        intro hmem
        exact hnotin (by
          rw [hstore2]
          exact List.mem_append_left _ (List.mem_append_left _ hmem))
      have hex2 : j.sourceUrl ∉ existingUrls := by
        have hnotin2 : j.sourceUrl ∉ store2 := by
          have := (List.mem_filter.mp hjn2).2
          simp only [Bool.and_eq_true, Bool.not_eq_true'] at this
          simpa using this.2
        intro hmem
        exact hnotin2 (by
          rw [hstore2]
          exact List.mem_append_left _ (List.mem_append_left _ hmem))
      have hjn1 : j ∈ newJobsOf jobs existingUrls :=
        List.mem_filter.mpr ⟨hjj, by simp [hex1, hex2]⟩
      have hjv1 : j ∈ validJobsOf (newJobsOf jobs existingUrls) verify :=
        List.mem_filter.mpr ⟨hjn1, hkeep⟩
      have hja1 : j ∈ approvedJobsOf
          (validJobsOf (newJobsOf jobs existingUrls) verify) analyze :=
        List.mem_filter.mpr ⟨hjv1, hacc⟩
      have hrow := mem_inserted_of_approved now jobs existingUrls verify
        analyze j hja1
      have hmemurl : j.applyUrl ∈
          (runPipeline now jobs existingUrls verify analyze
            (fun _ => true)).2.map JobInsertRow.applyUrl :=
        List.mem_map.mpr ⟨mkInsertRow now j (verify j) (analysisOf analyze j),
          hrow, rfl⟩
      exact hnotin (by
        rw [hstore2]
        exact List.mem_append_left _ (List.mem_append_right _ hmemurl))
    unfold runPipeline
    split
    · rfl
    · dsimp only
      split
      · rfl
      · split
        · rfl
        · simp [happr2, insertedRowsOf]

end JobVerifier
